import Mathlib

/-!
Verification of the odds-notifyer-server cache engine.

The repository has two variants of the cache service:
  * a bounded-provider variant (rate limited, `MAX_CALLS_PER_HOUR`), embedded
    in namespace `Bounded`;
  * an OpticOdds variant (no rate limiting, only an observability counter),
    embedded in namespace `Optic`.

JavaScript objects used as string-keyed maps are embedded as insertion-ordered
association lists (`getKey` / `setKey`); `Date.now()` values are `Nat`
milliseconds.  Each upstream HTTP interaction is resolved by an environment
value (`Upstream`): the response the network would deliver.  A ghost field
`httpRequests` counts the HTTP requests actually issued (the source logs each
one), so "no upstream call is made" is expressible.  All `Date.now()` and
`new Date()` reads inside a single loop iteration are modelled by one
timestamp; no claim depends on sub-iteration clock drift.
-/

/-- Event record as cached by both variants: id, home, away, date (epoch ms),
league, status. -/
structure Event where
  id : String
  home : String
  away : String
  date : Nat
  league : String
  status : String
deriving Repr, DecidableEq

/-- Error record stored in lastError: time, message and (for fetch failures)
the requested url. -/
structure CacheError where
  time : Nat
  message : String
  url : Option String
deriving Repr, DecidableEq

/-- Environment-determined outcome of one upstream HTTP request: a parsed 2xx
body, a non-2xx status, a transport failure, or a 2xx body whose JSON does not
parse (response.json() rejects). -/
inductive Upstream (α : Type) where
  | ok (payload : α)
  | httpError (status : Nat) (statusText : String)
  | transportError (msg : String)
  | badJson (msg : String)
deriving Repr, DecidableEq

/-- Lookup in a JS-object-as-map: value stored under the first (unique)
occurrence of the key. -/
def getKey {V : Type} : List (String × V) → String → Option V
  | [], _ => none
  | p :: ps, k => if p.1 = k then some p.2 else getKey ps k

/-- Assignment obj[k] = v on a JS object: an existing key keeps its position
and gets the new value, a new key is appended at the end. -/
def setKey {V : Type} : List (String × V) → String → V → List (String × V)
  | [], k, v => [(k, v)]
  | p :: ps, k, v => if p.1 = k then (k, v) :: ps else p :: setKey ps k v

/-- Key list of a JS-object-as-map, in insertion order. -/
def keysOf {V : Type} (m : List (String × V)) : List String :=
  m.map Prod.fst

/-- Object spread merge as in JS: keys of a first, entries of b override or
append. -/
def unionKeys {V : Type} (a b : List (String × V)) : List (String × V) :=
  b.foldl (fun acc p => setKey acc p.1 p.2) a

theorem keysOf_setKey {V : Type} (m : List (String × V)) (k : String) (v : V) :
    keysOf (setKey m k v) = if k ∈ keysOf m then keysOf m else keysOf m ++ [k] := by
  induction m with
  | nil => simp [setKey, keysOf]
  | cons p ps ih =>
    by_cases hpk : p.1 = k
    · subst hpk
      simp [setKey, keysOf]
    · have hne : ¬ (k = p.1) := fun h => hpk h.symm
      simp only [setKey, if_neg hpk, keysOf, List.map_cons, List.mem_cons, hne,
        false_or] at ih ⊢
      rw [ih]
      by_cases hk : k ∈ List.map Prod.fst ps <;> simp [hk]

theorem mem_keysOf_setKey {V : Type} (m : List (String × V)) (k a : String) (v : V)
    (h : a ∈ keysOf m) : a ∈ keysOf (setKey m k v) := by
  rw [keysOf_setKey]
  by_cases hk : k ∈ keysOf m <;> simp [hk, h]

theorem length_keysOf_setKey {V : Type} (m : List (String × V)) (k : String) (v : V) :
    (keysOf m).length ≤ (keysOf (setKey m k v)).length := by
  rw [keysOf_setKey]
  by_cases hk : k ∈ keysOf m <;> simp [hk]

theorem getKey_setKey_self {V : Type} (m : List (String × V)) (k : String) (v : V) :
    getKey (setKey m k v) k = some v := by
  induction m with
  | nil => simp [setKey, getKey]
  | cons p ps ih =>
    by_cases hpk : p.1 = k <;> simp [setKey, getKey, hpk, ih]

theorem getKey_setKey_ne {V : Type} (m : List (String × V)) (k k' : String) (v : V)
    (h : k' ≠ k) : getKey (setKey m k v) k' = getKey m k' := by
  have hkk : ¬ (k = k') := Ne.symm h
  induction m with
  | nil => simp [setKey, getKey, hkk]
  | cons p ps ih =>
    by_cases hpk : p.1 = k
    · subst hpk
      simp [setKey, getKey, hkk]
    · simp [setKey, getKey, hpk, ih]

/-- Stable insertion of an event into a date-sorted list: the new element goes
after every element whose date is less than or equal to its own, which is the
position a stable comparator sort (JS Array.prototype.sort with
`(a, b) => new Date(a.date) - new Date(b.date)`) assigns to it. -/
def insertByDate (a : Event) : List Event → List Event
  | [] => [a]
  | b :: bs => if b.date ≤ a.date then b :: insertByDate a bs else a :: b :: bs

/-- Stable sort by ascending date, modelling the JS comparator sort used by
both variants (stable per the ECMAScript specification). -/
def sortByDate (l : List Event) : List Event :=
  l.foldl (fun acc a => insertByDate a acc) []

theorem mem_insertByDate (a x : Event) (l : List Event) :
    x ∈ insertByDate a l ↔ x = a ∨ x ∈ l := by
  induction l with
  | nil => simp [insertByDate]
  | cons b bs ih =>
    by_cases h : b.date ≤ a.date
    · simp [insertByDate, h, ih]
      tauto
    · simp [insertByDate, h, ih]

theorem pairwise_insertByDate (a : Event) (l : List Event)
    (h : List.Pairwise (fun x y => x.date ≤ y.date) l) :
    List.Pairwise (fun x y => x.date ≤ y.date) (insertByDate a l) := by
  induction l with
  | nil => simp [insertByDate]
  | cons b bs ih =>
    rcases List.pairwise_cons.mp h with ⟨hb, hbs⟩
    by_cases hba : b.date ≤ a.date
    · simp only [insertByDate, if_pos hba]
      refine List.pairwise_cons.mpr ⟨?_, ih hbs⟩
      intro y hy
      rcases (mem_insertByDate a y bs).mp hy with rfl | hy'
      · exact hba
      · exact hb y hy'
    · simp only [insertByDate, if_neg hba]
      have hab : a.date ≤ b.date := Nat.le_of_lt (Nat.lt_of_not_le hba)
      refine List.pairwise_cons.mpr ⟨?_, h⟩
      intro y hy
      rcases List.mem_cons.mp hy with rfl | hy'
      · exact hab
      · exact Nat.le_trans hab (hb y hy')

theorem sortByDate_go (l acc : List Event)
    (hacc : List.Pairwise (fun x y => x.date ≤ y.date) acc) :
    List.Pairwise (fun x y => x.date ≤ y.date)
      (l.foldl (fun acc a => insertByDate a acc) acc) := by
  induction l generalizing acc with
  | nil => simpa using hacc
  | cons a l ih => exact ih _ (pairwise_insertByDate a acc hacc)

theorem sortByDate_sorted (l : List Event) :
    List.Pairwise (fun x y => x.date ≤ y.date) (sortByDate l) :=
  sortByDate_go l [] (by simp)

theorem mem_sortByDate_go (l acc : List Event) (x : Event) :
    x ∈ l.foldl (fun acc a => insertByDate a acc) acc ↔ x ∈ l ∨ x ∈ acc := by
  induction l generalizing acc with
  | nil => simp
  | cons a l ih =>
    simp only [List.foldl_cons, ih, mem_insertByDate, List.mem_cons]
    tauto

theorem mem_sortByDate (l : List Event) (x : Event) :
    x ∈ sortByDate l ↔ x ∈ l := by
  unfold sortByDate
  rw [mem_sortByDate_go]
  simp

namespace Bounded

/-! The bounded-provider variant of services/oddsCache.js: hourly call budget
`MAX_CALLS_PER_HOUR`, per-bookmaker odds requests, three-day look-ahead
horizon. -/

/-- Environment-supplied API key; its value is irrelevant to every claim, so
it is modelled by a placeholder constant. -/
def ODDS_API_KEY : String := "ODDS_API_KEY"

/-- Environment-supplied base URL (default value from the source). -/
def ODDS_API_BASE : String := "https://api2.odds-api.io/v3"

/-- Environment-supplied hourly budget, default 5000. -/
def MAX_CALLS_PER_HOUR : Nat := 5000

/-- One hour in milliseconds, as computed in checkRateLimit. -/
def hourMs : Nat := 60 * 60 * 1000

def NBA_BOOKMAKERS : List String :=
  ["Kambi", "Bet365", "DraftKings", "Pinnacle", "BetMGM", "Caesars", "PrizePicks",
   "FanDuel", "BetOnline.ag", "BetPARX", "BetRivers", "Bovada", "Fanatics", "Fliff",
   "Superbet", "Underdog", "Bally Bet"]

def FOOTBALL_BOOKMAKERS : List String :=
  ["Pinnacle", "Bet365", "Kambi", "DraftKings", "FanDuel", "BetMGM", "Caesars",
   "BetOnline.ag", "BetRivers", "Bovada", "Fanatics", "Superbet", "Bally Bet"]

def FOOTBALL_LEAGUES : List String :=
  ["england-premier-league", "england-championship", "england-fa-cup", "spain-laliga",
   "spain-laliga-2", "germany-bundesliga", "germany-2-bundesliga", "italy-serie-a",
   "italy-serie-b", "france-ligue-1", "france-ligue-2", "netherlands-eredivisie",
   "portugal-liga-portugal", "belgium-pro-league", "scotland-premiership",
   "denmark-superliga", "austria-bundesliga", "greece-super-league",
   "international-clubs-uefa-champions-league", "international-clubs-uefa-europa-league",
   "international-clubs-uefa-conference-league", "saudi-arabia-saudi-pro-league",
   "brazil-brasileiro-serie-a", "argentina-liga-profesional"]

/-- Opaque per-bookmaker odds blob: this variant stores
`data.bookmakers[bookmaker]` verbatim and never inspects it. -/
abbrev BookData := String

/-- Parsed JSON body an upstream 2xx response can carry: an array of events
(events endpoint), an odds object (odds endpoint), or valid JSON of any other
shape. -/
inductive Payload where
  | eventsArr (events : List Event)
  | oddsObj (bookmakers : List (String × BookData)) (urls : List (String × String))
      (home : String) (away : String) (date : Nat)
  | other
deriving Repr, DecidableEq

/-- Per-event odds snapshot under construction or in the cache:
`{bookmakers, urls?, home?, away?, date?, cachedAt}`. -/
structure EventOdds where
  bookmakers : List (String × BookData)
  urls : List (String × String)
  home : Option String
  away : Option String
  date : Option Nat
  cachedAt : Nat
deriving Repr, DecidableEq

/-- Full mutable state of the OddsCache singleton, plus the ghost counter
`httpRequests` of HTTP requests actually issued. -/
structure OddsCache where
  nbaEvents : List Event
  nbaOdds : List (String × EventOdds)
  footballEvents : List (String × List Event)
  footballOdds : List (String × EventOdds)
  apiCallsThisHour : Nat
  hourStartTime : Nat
  lastNbaEventsUpdate : Option Nat
  lastNbaOddsUpdate : Option Nat
  lastFootballEventsUpdate : List (String × Nat)
  lastFootballOddsUpdate : Option Nat
  isRefreshing : Bool
  lastError : Option CacheError
  httpRequests : Nat
deriving Repr, DecidableEq

/-- checkRateLimit: reset the counter and window start when a full window has
elapsed, then report whether the budget still permits a call. -/
def checkRateLimit (now : Nat) (s : OddsCache) : Bool × OddsCache :=
  let s := if hourMs ≤ now - s.hourStartTime
           then { s with apiCallsThisHour := 0, hourStartTime := now }
           else s
  (decide (s.apiCallsThisHour < MAX_CALLS_PER_HOUR), s)

/-- getRemainingCalls: runs checkRateLimit (possibly resetting the window) and
returns the remaining budget. -/
def getRemainingCalls (now : Nat) (s : OddsCache) : Nat × OddsCache :=
  let s := (checkRateLimit now s).2
  (MAX_CALLS_PER_HOUR - s.apiCallsThisHour, s)

/-- fetchWithRateLimit: skip the call when the gate rejects; otherwise count
the call, issue the request, and either return the parsed body or record the
failure in lastError and return null (`none`). -/
def fetchWithRateLimit (now : Nat) (url : String) (resp : Upstream Payload)
    (s : OddsCache) : Option Payload × OddsCache :=
  let gate := checkRateLimit now s
  if !gate.1 then (none, gate.2)
  else
    let s := { gate.2 with apiCallsThisHour := gate.2.apiCallsThisHour + 1,
                           httpRequests := gate.2.httpRequests + 1 }
    match resp with
    | .ok p => (some p, s)
    | .httpError code text =>
        let msg := "HTTP " ++ toString code ++ ": " ++ text
        (none, { s with lastError := some ⟨now, msg, some url⟩ })
    | .transportError m => (none, { s with lastError := some ⟨now, m, some url⟩ })
    | .badJson m => (none, { s with lastError := some ⟨now, m, some url⟩ })

/-- Any sequence of fetchWithRateLimit operations, each with its own clock
reading, url and network outcome. -/
def runFetches (ops : List (Nat × String × Upstream Payload)) (s : OddsCache) :
    OddsCache :=
  ops.foldl (fun s op => (fetchWithRateLimit op.1 op.2.1 op.2.2 s).2) s

def nbaEventsUrl : String :=
  ODDS_API_BASE ++ "/events?apiKey=" ++ ODDS_API_KEY ++
    "&sport=basketball&league=usa-nba&status=pending"

def nbaOddsUrl (eventId bookmaker : String) : String :=
  ODDS_API_BASE ++ "/odds?apiKey=" ++ ODDS_API_KEY ++ "&eventId=" ++ eventId ++
    "&bookmakers=" ++ bookmaker

def footballEventsUrl (leagueSlug : String) : String :=
  ODDS_API_BASE ++ "/events?apiKey=" ++ ODDS_API_KEY ++ "&sport=football&league=" ++
    leagueSlug ++ "&status=pending"

/-- fetchNbaEvents: one upstream call; when the body is an array (empty
included, since an empty JS array is truthy) it replaces nbaEvents wholesale
and stamps lastNbaEventsUpdate; any other outcome leaves both untouched. -/
def fetchNbaEvents (now : Nat) (resp : Upstream Payload) (s : OddsCache) :
    List Event × OddsCache :=
  let r := fetchWithRateLimit now nbaEventsUrl resp s
  match r.1 with
  | some (.eventsArr evs) =>
      (evs, { r.2 with nbaEvents := evs, lastNbaEventsUpdate := some now })
  | _ => (r.2.nbaEvents, r.2)

/-- fetchFootballEvents: as fetchNbaEvents, but for one league slug. -/
def fetchFootballEvents (leagueSlug : String) (now : Nat) (resp : Upstream Payload)
    (s : OddsCache) : List Event × OddsCache :=
  let r := fetchWithRateLimit now (footballEventsUrl leagueSlug) resp s
  match r.1 with
  | some (.eventsArr evs) =>
      let s := { r.2 with
        footballEvents := setKey r.2.footballEvents leagueSlug evs,
        lastFootballEventsUpdate := setKey r.2.lastFootballEventsUpdate leagueSlug now }
      ((getKey s.footballEvents leagueSlug).getD [], s)
  | _ => ((getKey r.2.footballEvents leagueSlug).getD [], r.2)

/-- Per-iteration oracle for a loop that issues one HTTP request: the clock
reading for that iteration and the network outcome of the request. -/
structure Tick where
  now : Nat
  resp : Upstream Payload
deriving Repr, DecidableEq

/-- Oracle used when the environment list runs out: clock 0 and a failed
request. -/
def defaultTick : Tick := ⟨0, .transportError "fetch failed"⟩

/-- One iteration body of the fetchNbaOddsForEvent bookmaker loop (after its
budget gate): one upstream call for the given bookmaker; when the body is an
odds object that carries data for that bookmaker, merge it into the snapshot
under construction, otherwise leave the snapshot as it is. -/
def nbaOddsStep (eventId : String) (acc : EventOdds) (bookmaker : String) (t : Tick)
    (s : OddsCache) : EventOdds × OddsCache :=
  let r := fetchWithRateLimit t.now (nbaOddsUrl eventId bookmaker) t.resp s
  match r.1 with
  | some (.oddsObj bs _ h a d) =>
      match getKey bs bookmaker with
      | some bd =>
          ({ acc with bookmakers := setKey acc.bookmakers bookmaker bd,
                      home := some h, away := some a, date := some d }, r.2)
      | none => (acc, r.2)
  | _ => (acc, r.2)

/-- Bookmaker loop of fetchNbaOddsForEvent: gate first (a failing gate breaks
the loop), then one request per bookmaker. -/
def nbaOddsLoop (eventId : String) :
    List String → List Tick → EventOdds → OddsCache → EventOdds × OddsCache
  | [], _, acc, s => (acc, s)
  | bk :: bks, ticks, acc, s =>
      let t := ticks.headD defaultTick
      let gate := checkRateLimit t.now s
      if !gate.1 then (acc, gate.2)
      else
        let step := nbaOddsStep eventId acc bk t gate.2
        nbaOddsLoop eventId bks ticks.tail step.1 step.2

/-- fetchNbaOddsForEvent: build a fresh snapshot over the bookmaker list and
store it unconditionally under the event id. -/
def fetchNbaOddsForEvent (eventId : String) (ticks : List Tick) (now : Nat)
    (s : OddsCache) : EventOdds × OddsCache :=
  let init : EventOdds := ⟨[], [], none, none, none, now⟩
  let r := nbaOddsLoop eventId NBA_BOOKMAKERS ticks init s
  (r.1, { r.2 with nbaOdds := setKey r.2.nbaOdds eventId r.1 })

/-- Why the per-event refresh loop ended: it ran out of events, or the budget
gate rejected (the source logs the latter as rate limit reached). -/
inductive StopCause where
  | listExhausted
  | budget
deriving Repr, DecidableEq

/-- Per-event oracle of a refreshOdds loop: the clock reading of the
iteration and the per-bookmaker oracles of the inner fetch. -/
structure EventEnv where
  now : Nat
  ticks : List Tick
deriving Repr, DecidableEq

def defaultEventEnv : EventEnv := ⟨0, []⟩

/-- Event loop of refreshNbaOdds: budget gate before each event, then one
fetchNbaOddsForEvent; also returns the ids processed (in order) and the stop
cause, both observable in the source's log output. -/
def refreshNbaOddsLoop :
    List Event → List EventEnv → OddsCache → OddsCache × List String × StopCause
  | [], _, s => (s, [], .listExhausted)
  | e :: es, envs, s =>
      let env := envs.headD defaultEventEnv
      let gate := checkRateLimit env.now s
      if !gate.1 then (gate.2, [], .budget)
      else
        let f := fetchNbaOddsForEvent e.id env.ticks env.now gate.2
        let rest := refreshNbaOddsLoop es envs.tail f.2
        (rest.1, e.id :: rest.2.1, rest.2.2)

/-- Three days in milliseconds: the look-ahead horizon of both refreshOdds
loops. -/
def threeDaysMs : Nat := 3 * 24 * 60 * 60 * 1000

/-- refreshNbaOdds: fetch events first when none are cached, sort ascending by
date, keep only events up to three days ahead, then fetch odds per event until
the budget or the list is exhausted; finally stamp lastNbaOddsUpdate. -/
def refreshNbaOdds (now : Nat) (evTick : Tick) (envs : List EventEnv)
    (s : OddsCache) : OddsCache × List String × StopCause :=
  let s := if s.nbaEvents.length = 0 then (fetchNbaEvents evTick.now evTick.resp s).2
           else s
  let sortedEvents := sortByDate s.nbaEvents
  let upcomingEvents := sortedEvents.filter (fun e => decide (e.date ≤ now + threeDaysMs))
  let r := refreshNbaOddsLoop upcomingEvents envs s
  ({ r.1 with lastNbaOddsUpdate := some now }, r.2)

/-- One iteration body of the fetchFootballOddsForEvent bookmaker loop: like
the NBA one, but also spread-merging the urls object on success. -/
def footballOddsStep (eventId : String) (acc : EventOdds) (bookmaker : String)
    (t : Tick) (s : OddsCache) : EventOdds × OddsCache :=
  let r := fetchWithRateLimit t.now (nbaOddsUrl eventId bookmaker) t.resp s
  match r.1 with
  | some (.oddsObj bs urls h a d) =>
      match getKey bs bookmaker with
      | some bd =>
          ({ acc with bookmakers := setKey acc.bookmakers bookmaker bd,
                      urls := unionKeys acc.urls urls,
                      home := some h, away := some a, date := some d }, r.2)
      | none => (acc, r.2)
  | _ => (acc, r.2)

/-- Bookmaker loop of fetchFootballOddsForEvent. -/
def footballOddsLoop (eventId : String) :
    List String → List Tick → EventOdds → OddsCache → EventOdds × OddsCache
  | [], _, acc, s => (acc, s)
  | bk :: bks, ticks, acc, s =>
      let t := ticks.headD defaultTick
      let gate := checkRateLimit t.now s
      if !gate.1 then (acc, gate.2)
      else
        let step := footballOddsStep eventId acc bk t gate.2
        footballOddsLoop eventId bks ticks.tail step.1 step.2

/-- fetchFootballOddsForEvent with its bookmaker-list parameter (the callers
in this repository always use the default FOOTBALL_BOOKMAKERS). -/
def fetchFootballOddsForEvent (eventId : String) (bookmakers : List String)
    (ticks : List Tick) (now : Nat) (s : OddsCache) : EventOdds × OddsCache :=
  let init : EventOdds := ⟨[], [], none, none, none, now⟩
  let r := footballOddsLoop eventId bookmakers ticks init s
  (r.1, { r.2 with footballOdds := setKey r.2.footballOdds eventId r.1 })

/-- League loop of refreshFootballOdds: budget gate before each league, then
one events fetch per league. -/
def footballEventsLoop : List String → List Tick → OddsCache → OddsCache
  | [], _, s => s
  | lg :: lgs, ticks, s =>
      let t := ticks.headD defaultTick
      let gate := checkRateLimit t.now s
      if !gate.1 then gate.2
      else footballEventsLoop lgs ticks.tail (fetchFootballEvents lg t.now t.resp gate.2).2

/-- Flattening of the cached per-league event lists, each event receiving the
league slug it was filed under. -/
def collectFootballEvents (s : OddsCache) : List Event :=
  FOOTBALL_LEAGUES.foldl
    (fun acc lg => acc ++ ((getKey s.footballEvents lg).getD []).map
      (fun e => { e with league := lg })) []

/-- Event loop of refreshFootballOdds. -/
def footballPerEventLoop : List Event → List EventEnv → OddsCache → OddsCache
  | [], _, s => s
  | e :: es, envs, s =>
      let env := envs.headD defaultEventEnv
      let gate := checkRateLimit env.now s
      if !gate.1 then gate.2
      else
        let f := fetchFootballOddsForEvent e.id FOOTBALL_BOOKMAKERS env.ticks env.now gate.2
        footballPerEventLoop es envs.tail f.2

/-- refreshFootballOdds: refetch the events of every league (budget gated),
flatten and sort all cached events, keep the three-day horizon, fetch odds per
event until the budget or the list is exhausted, stamp lastFootballOddsUpdate. -/
def refreshFootballOdds (now : Nat) (leagueTicks : List Tick) (envs : List EventEnv)
    (s : OddsCache) : OddsCache :=
  let s := footballEventsLoop FOOTBALL_LEAGUES leagueTicks s
  let sortedEvents := sortByDate (collectFootballEvents s)
  let upcomingEvents := sortedEvents.filter (fun e => decide (e.date ≤ now + threeDaysMs))
  let s := footballPerEventLoop upcomingEvents envs s
  { s with lastFootballOddsUpdate := some now }

/-- Complete oracle for one refreshAll cycle, including an optional injected
runtime exception: `raise = some (k, t, msg)` with `k < 3` throws after `k`
of the three phases (fetchNbaEvents, refreshNbaOdds, refreshFootballOdds)
completed, at clock `t` with message `msg`; any other value means the body
runs to completion. -/
structure RefreshEnv where
  statusNow : Nat
  nbaEvTick : Tick
  nbaNow : Nat
  nbaEvTick2 : Tick
  nbaEnvs : List EventEnv
  fbNow : Nat
  fbLeagueTicks : List Tick
  fbEnvs : List EventEnv
  raise : Option (Nat × Nat × String)
deriving Repr, DecidableEq

/-- Whether the injected exception fires after exactly `k` completed phases. -/
def raiseAt (env : RefreshEnv) (k : Nat) : Option (Nat × String) :=
  match env.raise with
  | some (p, t, m) => if p = k then some (t, m) else none
  | none => none

/-- Body of the try block of refreshAll: fetchNbaEvents, refreshNbaOdds,
refreshFootballOdds in that order; an error value carries the thrown time and
message together with the state at the throw point. -/
def refreshAllBody (env : RefreshEnv) (s : OddsCache) :
    Except (Nat × String × OddsCache) OddsCache :=
  match raiseAt env 0 with
  | some (t, m) => .error (t, m, s)
  | none =>
    let s := (fetchNbaEvents env.nbaEvTick.now env.nbaEvTick.resp s).2
    match raiseAt env 1 with
    | some (t, m) => .error (t, m, s)
    | none =>
      let s := (refreshNbaOdds env.nbaNow env.nbaEvTick2 env.nbaEnvs s).1
      match raiseAt env 2 with
      | some (t, m) => .error (t, m, s)
      | none => .ok (refreshFootballOdds env.fbNow env.fbLeagueTicks env.fbEnvs s)

/-- refreshAll: a no-op when a refresh is already in flight; otherwise set
isRefreshing, log the remaining budget (which runs checkRateLimit), run the
cycle body inside try/catch, record a thrown error in lastError, and clear
isRefreshing unconditionally on exit.  The total return type encodes that no
error propagates to the caller. -/
def refreshAll (env : RefreshEnv) (s : OddsCache) : OddsCache :=
  if s.isRefreshing then s
  else
    let s := { s with isRefreshing := true }
    let s := (getRemainingCalls env.statusNow s).2
    match refreshAllBody env s with
    | .ok s2 => { s2 with isRefreshing := false }
    | .error (t, m, s2) =>
        { s2 with lastError := some ⟨t, m, none⟩, isRefreshing := false }

end Bounded

namespace Optic

/-! The OpticOdds variant of services/oddsCache.js: no rate limiting, one
odds request covering all bookmakers per event, `apiCallCount` kept only for
logging, and a missing-API-key short circuit in every fetch. -/

/-- Base URL constant from the source. -/
def OPTIC_API_BASE : String := "https://api.opticodds.com/api/v3"

def NBA_BOOKMAKERS : List String :=
  ["draftkings", "fanduel", "betmgm", "caesars", "pointsbet", "bet365", "pinnacle",
   "bovada", "betonline", "betrivers", "unibet", "wynnbet", "superbook", "barstool",
   "hard_rock"]

def FOOTBALL_BOOKMAKERS : List String :=
  ["pinnacle", "bet365", "draftkings", "fanduel", "betmgm", "caesars", "betonline",
   "betrivers", "bovada", "unibet", "pointsbet"]

/-- Raw fixture record of the provider, before the transform applied by the
events fetchers. -/
structure RawFixture where
  id : String
  home_team : String
  away_team : String
  start_date : Nat
  status : String
deriving Repr, DecidableEq

/-- One entry of the odds array of a fixture: sportsbook, market and outcome
fields. -/
structure OddRecord where
  sportsbook : String
  market : String
  name : String
  price : Int
  points : Option Int
  is_main : Bool
deriving Repr, DecidableEq

/-- Outcome entry pushed into a market list. -/
structure Outcome where
  name : String
  price : Int
  points : Option Int
  is_main : Bool
deriving Repr, DecidableEq

/-- Per-bookmaker data in a snapshot: the markets map. -/
structure OBookData where
  markets : List (String × List Outcome)
deriving Repr, DecidableEq

/-- Per-event odds snapshot of this variant. -/
structure OEventOdds where
  bookmakers : List (String × OBookData)
  home : Option String
  away : Option String
  date : Option Nat
  cachedAt : Nat
deriving Repr, DecidableEq

/-- Odds payload entry: `data.data[i]` of the odds endpoint, with an optional
odds array. -/
structure OddsFixture where
  odds : Option (List OddRecord)
  home_team : String
  away_team : String
  start_date : Nat
deriving Repr, DecidableEq

/-- Parsed JSON body an OpticOdds 2xx response can carry: a fixtures list
under .data, an odds list under .data, or valid JSON without the expected
.data array. -/
inductive OPayload where
  | fixtures (fs : List RawFixture)
  | oddsData (ds : List OddsFixture)
  | noData
deriving Repr, DecidableEq

/-- Full mutable state of the OpticOdds OddsCache singleton, plus the ghost
counter `httpRequests` of HTTP requests actually issued. -/
structure OddsCache where
  nbaEvents : List Event
  nbaOdds : List (String × OEventOdds)
  footballEvents : List (String × List Event)
  footballOdds : List (String × OEventOdds)
  apiCallCount : Nat
  lastNbaEventsUpdate : Option Nat
  lastNbaOddsUpdate : Option Nat
  lastFootballEventsUpdate : List (String × Nat)
  lastFootballOddsUpdate : Option Nat
  isRefreshing : Bool
  lastError : Option CacheError
  httpRequests : Nat
deriving Repr, DecidableEq

/-- fetchApi: short-circuit with a recorded error when no API key is
configured; otherwise count and issue the request, returning the parsed body
or recording the failure in lastError and returning null (`none`). `key` is
the environment-supplied OPTIC_ODDS_API_KEY (default empty). -/
def fetchApi (key : String) (now : Nat) (url : String) (resp : Upstream OPayload)
    (s : OddsCache) : Option OPayload × OddsCache :=
  if key = "" then
    (none, { s with lastError := some ⟨now, "API key not configured", none⟩ })
  else
    let s := { s with apiCallCount := s.apiCallCount + 1,
                      httpRequests := s.httpRequests + 1 }
    match resp with
    | .ok p => (some p, s)
    | .httpError code text =>
        let msg := "HTTP " ++ toString code ++ ": " ++ text
        (none, { s with lastError := some ⟨now, msg, some url⟩ })
    | .transportError m => (none, { s with lastError := some ⟨now, m, some url⟩ })
    | .badJson m => (none, { s with lastError := some ⟨now, m, some url⟩ })

def nbaEventsUrl : String := OPTIC_API_BASE ++ "/fixtures/active?league=nba"

def nbaOddsUrl (eventId : String) : String :=
  OPTIC_API_BASE ++ "/fixtures/odds?fixture_id=" ++ eventId ++ "&sportsbook=" ++
    String.intercalate "," NBA_BOOKMAKERS

/-- Transform of a raw fixture into the cached event format (league fixed to
nba by fetchNbaEvents). -/
def transformFixture (league : String) (f : RawFixture) : Event :=
  ⟨f.id, f.home_team, f.away_team, f.start_date, league, f.status⟩

/-- fetchNbaEvents: one upstream call; when the body has a .data array (empty
included, since an empty JS array is truthy) the transformed array replaces
nbaEvents wholesale and lastNbaEventsUpdate is stamped; any other outcome
leaves both untouched. -/
def fetchNbaEvents (key : String) (now : Nat) (resp : Upstream OPayload)
    (s : OddsCache) : List Event × OddsCache :=
  let r := fetchApi key now nbaEventsUrl resp s
  match r.1 with
  | some (.fixtures fs) =>
      let evs := fs.map (transformFixture "nba")
      (evs, { r.2 with nbaEvents := evs, lastNbaEventsUpdate := some now })
  | _ => (r.2.nbaEvents, r.2)

/-- Merge of one odds-array entry into the bookmakers map under construction:
get-or-create the sportsbook entry, get-or-create its market list, append the
outcome. -/
def mergeOdd (bs : List (String × OBookData)) (o : OddRecord) :
    List (String × OBookData) :=
  let cur := (getKey bs o.sportsbook).getD ⟨[]⟩
  let outs := (getKey cur.markets o.market).getD []
  let upd : OBookData :=
    ⟨setKey cur.markets o.market (outs ++ [⟨o.name, o.price, o.points, o.is_main⟩])⟩
  setKey bs o.sportsbook upd

/-- fetchNbaOddsForEvent: one upstream call for all bookmakers; when the body
has a non-empty .data array, fold its first element's odds array through
mergeOdd and copy the team and date fields; the built snapshot is stored
unconditionally under the event id. -/
def fetchNbaOddsForEvent (key : String) (now : Nat) (eventId : String)
    (resp : Upstream OPayload) (s : OddsCache) : OEventOdds × OddsCache :=
  let init : OEventOdds := ⟨[], none, none, none, now⟩
  let r := fetchApi key now (nbaOddsUrl eventId) resp s
  let odds :=
    match r.1 with
    | some (.oddsData (d :: _)) =>
        let bs := match d.odds with
                  | some os => os.foldl mergeOdd init.bookmakers
                  | none => init.bookmakers
        { init with bookmakers := bs, home := some d.home_team,
                    away := some d.away_team, date := some d.start_date }
    | _ => init
  (odds, { r.2 with nbaOdds := setKey r.2.nbaOdds eventId odds })

/-- Event loop of refreshNbaOdds: no budget gate, one fetchNbaOddsForEvent per
event; also returns the ids processed, in order. -/
def refreshNbaOddsLoop (key : String) :
    List Event → List (Nat × Upstream OPayload) → OddsCache → OddsCache × List String
  | [], _, s => (s, [])
  | e :: es, envs, s =>
      let env := envs.headD (0, .transportError "fetch failed")
      let f := fetchNbaOddsForEvent key env.1 e.id env.2 s
      let rest := refreshNbaOddsLoop key es envs.tail f.2
      (rest.1, e.id :: rest.2)

/-- refreshNbaOdds: fetch events first when none are cached, sort ascending by
date, then fetch odds for every sorted event (no horizon restriction and no
budget gate in this variant); finally stamp lastNbaOddsUpdate. -/
def refreshNbaOdds (key : String) (now : Nat) (evResp : Upstream OPayload)
    (envs : List (Nat × Upstream OPayload)) (s : OddsCache) :
    OddsCache × List String :=
  let s := if s.nbaEvents.length = 0 then (fetchNbaEvents key now evResp s).2 else s
  let sortedEvents := sortByDate s.nbaEvents
  let r := refreshNbaOddsLoop key sortedEvents envs s
  ({ r.1 with lastNbaOddsUpdate := some now }, r.2)

end Optic

/-! Helper lemmas about the budget gate of the bounded variant. -/

theorem checkRateLimit_fst (now : Nat) (s : Bounded.OddsCache) :
    (Bounded.checkRateLimit now s).1 =
      decide ((Bounded.checkRateLimit now s).2.apiCallsThisHour <
        Bounded.MAX_CALLS_PER_HOUR) := by
  unfold Bounded.checkRateLimit
  by_cases hw : Bounded.hourMs ≤ now - s.hourStartTime <;> simp [hw]

theorem checkRateLimit_reset (now : Nat) (s : Bounded.OddsCache)
    (h : Bounded.hourMs ≤ now - s.hourStartTime) :
    (Bounded.checkRateLimit now s).2 =
      { s with apiCallsThisHour := 0, hourStartTime := now } := by
  unfold Bounded.checkRateLimit
  simp [h]

theorem checkRateLimit_noreset (now : Nat) (s : Bounded.OddsCache)
    (h : now - s.hourStartTime < Bounded.hourMs) :
    (Bounded.checkRateLimit now s).2 = s := by
  unfold Bounded.checkRateLimit
  simp [Nat.not_le.mpr h]

theorem checkRateLimit_count_le (now : Nat) (s : Bounded.OddsCache)
    (h : s.apiCallsThisHour ≤ Bounded.MAX_CALLS_PER_HOUR) :
    (Bounded.checkRateLimit now s).2.apiCallsThisHour ≤ Bounded.MAX_CALLS_PER_HOUR := by
  unfold Bounded.checkRateLimit
  by_cases hw : Bounded.hourMs ≤ now - s.hourStartTime <;> simp [hw, h]

theorem checkRateLimit_httpRequests (now : Nat) (s : Bounded.OddsCache) :
    (Bounded.checkRateLimit now s).2.httpRequests = s.httpRequests := by
  unfold Bounded.checkRateLimit
  by_cases hw : Bounded.hourMs ≤ now - s.hourStartTime <;> simp [hw]

theorem fetchWithRateLimit_count (now : Nat) (url : String)
    (resp : Upstream Bounded.Payload) (s : Bounded.OddsCache) :
    (Bounded.fetchWithRateLimit now url resp s).2.apiCallsThisHour =
      (if (Bounded.checkRateLimit now s).2.apiCallsThisHour < Bounded.MAX_CALLS_PER_HOUR
       then (Bounded.checkRateLimit now s).2.apiCallsThisHour + 1
       else (Bounded.checkRateLimit now s).2.apiCallsThisHour) := by
  by_cases hc : (Bounded.checkRateLimit now s).2.apiCallsThisHour <
      Bounded.MAX_CALLS_PER_HOUR
  · cases resp <;> simp [Bounded.fetchWithRateLimit, checkRateLimit_fst, hc]
  · simp [Bounded.fetchWithRateLimit, checkRateLimit_fst, hc]

theorem fetchWithRateLimit_http (now : Nat) (url : String)
    (resp : Upstream Bounded.Payload) (s : Bounded.OddsCache) :
    (Bounded.fetchWithRateLimit now url resp s).2.httpRequests =
      (if (Bounded.checkRateLimit now s).2.apiCallsThisHour < Bounded.MAX_CALLS_PER_HOUR
       then s.httpRequests + 1 else s.httpRequests) := by
  by_cases hc : (Bounded.checkRateLimit now s).2.apiCallsThisHour <
      Bounded.MAX_CALLS_PER_HOUR
  · cases resp <;>
      simp [Bounded.fetchWithRateLimit, checkRateLimit_fst, hc,
        checkRateLimit_httpRequests]
  · simp [Bounded.fetchWithRateLimit, checkRateLimit_fst, hc,
      checkRateLimit_httpRequests]

theorem fetchWithRateLimit_le (now : Nat) (url : String)
    (resp : Upstream Bounded.Payload) (s : Bounded.OddsCache)
    (h : s.apiCallsThisHour ≤ Bounded.MAX_CALLS_PER_HOUR) :
    (Bounded.fetchWithRateLimit now url resp s).2.apiCallsThisHour ≤
      Bounded.MAX_CALLS_PER_HOUR := by
  rw [fetchWithRateLimit_count]
  have hle := checkRateLimit_count_le now s h
  by_cases hc : (Bounded.checkRateLimit now s).2.apiCallsThisHour <
      Bounded.MAX_CALLS_PER_HOUR
  · simp only [hc, if_true]
    omega
  · simp only [hc, if_false]
    exact hle

theorem runFetches_le (ops : List (Nat × String × Upstream Bounded.Payload))
    (s : Bounded.OddsCache) (h : s.apiCallsThisHour ≤ Bounded.MAX_CALLS_PER_HOUR) :
    (Bounded.runFetches ops s).apiCallsThisHour ≤ Bounded.MAX_CALLS_PER_HOUR := by
  induction ops generalizing s with
  | nil => simpa [Bounded.runFetches] using h
  | cons op ops ih =>
    simp only [Bounded.runFetches, List.foldl_cons] at ih ⊢
    exact ih _ (fetchWithRateLimit_le op.1 op.2.1 op.2.2 s h)

/-! Sample inputs used by witnesses and counterexamples. -/

def emptyBounded : Bounded.OddsCache :=
  ⟨[], [], [], [], 0, 0, none, none, [], none, false, none, 0⟩

def emptyOptic : Optic.OddsCache :=
  ⟨[], [], [], [], 0, none, none, [], none, false, none, 0⟩

def sampleRefreshEnv : Bounded.RefreshEnv :=
  ⟨0, Bounded.defaultTick, 0, Bounded.defaultTick, [], 0, [], [], none⟩

/-! Claim theorems. -/

/-- Claim C1: for every state in which isRefreshing is true, invoking
refreshAll is a no-op: the resulting state equals the input state in every
field (events collections, odds maps, timestamps, apiCallsThisHour and the
ghost httpRequests counter), so no upstream call is attributable to the
invocation; refreshAll proceeds past the guard only when isRefreshing is
false at entry. -/
theorem refreshAll_noop_when_refreshing (env : Bounded.RefreshEnv)
    (s : Bounded.OddsCache) (h : s.isRefreshing = true) :
    Bounded.refreshAll env s = s := by
  unfold Bounded.refreshAll
  simp [h]

theorem refreshAll_noop_when_refreshing_witness :
    Bounded.OddsCache.isRefreshing { emptyBounded with isRefreshing := true } = true ∧
    Bounded.refreshAll sampleRefreshEnv { emptyBounded with isRefreshing := true } =
      { emptyBounded with isRefreshing := true } :=
  ⟨rfl, refreshAll_noop_when_refreshing sampleRefreshEnv
    { emptyBounded with isRefreshing := true } rfl⟩

/-- Claim C3: every refreshAll execution that passes the entry guard ends with
isRefreshing false, whether the cycle body completed or threw; a thrown error
is recorded in lastError (time and message, no url) and, the return type of
the embedding being total, never propagates to the caller. -/
theorem refreshAll_clears_flag (env : Bounded.RefreshEnv) (s : Bounded.OddsCache)
    (h : s.isRefreshing = false) :
    (Bounded.refreshAll env s).isRefreshing = false ∧
    (∀ k t m, env.raise = some (k, t, m) → k < 3 →
      (Bounded.refreshAll env s).lastError = some ⟨t, m, none⟩) := by
  constructor
  · unfold Bounded.refreshAll
    rw [h]
    simp only [Bool.false_eq_true, if_false]
    cases hb : Bounded.refreshAllBody env
        (Bounded.getRemainingCalls env.statusNow { s with isRefreshing := true }).2 with
    | ok s2 => simp
    | error e =>
      obtain ⟨t, m, s2⟩ := e
      simp
  · intro k t m hr hk
    unfold Bounded.refreshAll
    rw [h]
    simp only [Bool.false_eq_true, if_false]
    unfold Bounded.refreshAllBody Bounded.raiseAt
    rw [hr]
    interval_cases k <;> simp

theorem refreshAll_clears_flag_witness :
    Bounded.OddsCache.isRefreshing emptyBounded = false ∧
    (Bounded.refreshAll { sampleRefreshEnv with raise := some (1, 7, "boom") }
        emptyBounded).isRefreshing = false ∧
    (Bounded.refreshAll { sampleRefreshEnv with raise := some (1, 7, "boom") }
        emptyBounded).lastError = some ⟨7, "boom", none⟩ := by
  have h := refreshAll_clears_flag
    { sampleRefreshEnv with raise := some (1, 7, "boom") } emptyBounded rfl
  exact ⟨rfl, h.1, h.2 1 7 "boom" rfl (by decide)⟩

/-- Claim C2: in the bounded variant, apiCallsThisHour never exceeds
MAX_CALLS_PER_HOUR under any sequence of fetch operations; checkRateLimit
resets the counter to 0 and the window start to now exactly once when a full
window has elapsed and otherwise leaves the state untouched; the gate result
is count < limit evaluated after the possible reset; and a rejected gate
issues no HTTP request. -/
theorem call_budget_invariant (ops : List (Nat × String × Upstream Bounded.Payload))
    (s : Bounded.OddsCache) (h : s.apiCallsThisHour ≤ Bounded.MAX_CALLS_PER_HOUR) :
    (Bounded.runFetches ops s).apiCallsThisHour ≤ Bounded.MAX_CALLS_PER_HOUR ∧
    (∀ (now : Nat) (t : Bounded.OddsCache), Bounded.hourMs ≤ now - t.hourStartTime →
      (Bounded.checkRateLimit now t).2.apiCallsThisHour = 0 ∧
      (Bounded.checkRateLimit now t).2.hourStartTime = now) ∧
    (∀ (now : Nat) (t : Bounded.OddsCache), now - t.hourStartTime < Bounded.hourMs →
      (Bounded.checkRateLimit now t).2 = t) ∧
    (∀ (now : Nat) (t : Bounded.OddsCache), (Bounded.checkRateLimit now t).1 =
      decide ((Bounded.checkRateLimit now t).2.apiCallsThisHour <
        Bounded.MAX_CALLS_PER_HOUR)) ∧
    (∀ (now : Nat) (url : String) (resp : Upstream Bounded.Payload)
        (t : Bounded.OddsCache), (Bounded.checkRateLimit now t).1 = false →
      (Bounded.fetchWithRateLimit now url resp t).2.httpRequests = t.httpRequests) := by
  refine ⟨runFetches_le ops s h, ?_, ?_, checkRateLimit_fst, ?_⟩
  · intro now t hw
    rw [checkRateLimit_reset now t hw]
    exact ⟨rfl, rfl⟩
  · intro now t hw
    exact checkRateLimit_noreset now t hw
  · intro now url resp t hgate
    simp [Bounded.fetchWithRateLimit, hgate, checkRateLimit_httpRequests]

theorem call_budget_invariant_witness :
    Bounded.OddsCache.apiCallsThisHour emptyBounded ≤ Bounded.MAX_CALLS_PER_HOUR ∧
    (Bounded.runFetches [(0, "u", .transportError "x"), (1, "u", .ok .other)]
      emptyBounded).apiCallsThisHour ≤ Bounded.MAX_CALLS_PER_HOUR := by
  have h := call_budget_invariant [(0, "u", .transportError "x"), (1, "u", .ok .other)]
    emptyBounded (by decide)
  exact ⟨by decide, h.1⟩

/-- Claim C10: in the bounded variant, whenever the budget gate passes, the
call counter is incremented by exactly one and one HTTP request is issued,
for every network outcome alike: a call that fails downstream (non-2xx body,
transport error or unparseable JSON) consumes the same one unit of budget as
a successful call. -/
theorem failed_call_consumes_budget (now : Nat) (url : String)
    (resp : Upstream Bounded.Payload) (s : Bounded.OddsCache)
    (h : (Bounded.checkRateLimit now s).1 = true) :
    (Bounded.fetchWithRateLimit now url resp s).2.apiCallsThisHour =
      (Bounded.checkRateLimit now s).2.apiCallsThisHour + 1 ∧
    (Bounded.fetchWithRateLimit now url resp s).2.httpRequests =
      s.httpRequests + 1 := by
  rw [checkRateLimit_fst] at h
  have hc : (Bounded.checkRateLimit now s).2.apiCallsThisHour <
      Bounded.MAX_CALLS_PER_HOUR := of_decide_eq_true h
  rw [fetchWithRateLimit_count, fetchWithRateLimit_http]
  simp [hc]

theorem failed_call_consumes_budget_witness :
    (Bounded.checkRateLimit 0 emptyBounded).1 = true ∧
    (Bounded.fetchWithRateLimit 0 "u" (.transportError "x")
        emptyBounded).2.apiCallsThisHour =
      (Bounded.checkRateLimit 0 emptyBounded).2.apiCallsThisHour + 1 ∧
    (Bounded.fetchWithRateLimit 0 "u" (.transportError "x")
        emptyBounded).2.httpRequests = emptyBounded.httpRequests + 1 := by
  have h := failed_call_consumes_budget 0 "u" (.transportError "x") emptyBounded
    (by decide)
  exact ⟨by decide, h.1, h.2⟩

/-- Claim C8: in the bounded variant, when the budget is exhausted (counter at
the limit inside a window that has not elapsed), fetchNbaOddsForEvent issues
zero HTTP requests and returns a snapshot whose bookmakers map has zero
keys. -/
theorem budget_exhausted_empty_snapshot (eventId : String)
    (ticks : List Bounded.Tick) (now : Nat) (s : Bounded.OddsCache)
    (hcount : s.apiCallsThisHour = Bounded.MAX_CALLS_PER_HOUR)
    (hwin : (ticks.headD Bounded.defaultTick).now - s.hourStartTime < Bounded.hourMs) :
    (Bounded.fetchNbaOddsForEvent eventId ticks now s).2.httpRequests =
      s.httpRequests ∧
    keysOf (Bounded.fetchNbaOddsForEvent eventId ticks now s).1.bookmakers = [] := by
  have hnr := checkRateLimit_noreset (ticks.headD Bounded.defaultTick).now s hwin
  have hf : (Bounded.checkRateLimit (ticks.headD Bounded.defaultTick).now s).1
      = false := by
    rw [checkRateLimit_fst, hnr, hcount]
    simp
  rw [List.headD_eq_head?] at hf hnr
  unfold Bounded.fetchNbaOddsForEvent Bounded.NBA_BOOKMAKERS
  unfold Bounded.nbaOddsLoop
  simp [hf, hnr, keysOf]

theorem budget_exhausted_empty_snapshot_witness :
    Bounded.OddsCache.apiCallsThisHour
        { emptyBounded with apiCallsThisHour := 5000 } =
      Bounded.MAX_CALLS_PER_HOUR ∧
    (Bounded.fetchNbaOddsForEvent "E1" [] 0
        { emptyBounded with apiCallsThisHour := 5000 }).2.httpRequests =
      Bounded.OddsCache.httpRequests { emptyBounded with apiCallsThisHour := 5000 } ∧
    keysOf (Bounded.fetchNbaOddsForEvent "E1" [] 0
        { emptyBounded with apiCallsThisHour := 5000 }).1.bookmakers = [] := by
  have h := budget_exhausted_empty_snapshot "E1" [] 0
    { emptyBounded with apiCallsThisHour := 5000 } (by decide) (by decide)
  exact ⟨by decide, h.1, h.2⟩

/-! Frame lemmas: the bookmaker loop of fetchNbaOddsForEvent never touches the
stored odds map; only the final assignment does. -/

theorem checkRateLimit_nbaOdds (now : Nat) (s : Bounded.OddsCache) :
    (Bounded.checkRateLimit now s).2.nbaOdds = s.nbaOdds := by
  unfold Bounded.checkRateLimit
  by_cases hw : Bounded.hourMs ≤ now - s.hourStartTime <;> simp [hw]

theorem fetchWithRateLimit_nbaOdds (now : Nat) (url : String)
    (resp : Upstream Bounded.Payload) (s : Bounded.OddsCache) :
    (Bounded.fetchWithRateLimit now url resp s).2.nbaOdds = s.nbaOdds := by
  by_cases hg : (Bounded.checkRateLimit now s).1 = true
  · cases resp <;> simp [Bounded.fetchWithRateLimit, hg, checkRateLimit_nbaOdds]
  · simp [Bounded.fetchWithRateLimit, hg, checkRateLimit_nbaOdds]

theorem nbaOddsStep_state (eventId : String) (acc : Bounded.EventOdds)
    (bookmaker : String) (t : Bounded.Tick) (s : Bounded.OddsCache) :
    (Bounded.nbaOddsStep eventId acc bookmaker t s).2 =
      (Bounded.fetchWithRateLimit t.now (Bounded.nbaOddsUrl eventId bookmaker)
        t.resp s).2 := by
  unfold Bounded.nbaOddsStep
  dsimp only
  rcases hr : (Bounded.fetchWithRateLimit t.now (Bounded.nbaOddsUrl eventId bookmaker)
      t.resp s).1 with _ | p
  · rfl
  · rcases p with evs | ⟨bs, urls, h, a, d⟩ | _
    · rfl
    · rcases hg2 : getKey bs bookmaker with _ | bd <;> simp [hg2]
    · rfl

theorem nbaOddsLoop_nbaOdds (eventId : String) (bks : List String)
    (ticks : List Bounded.Tick) (acc : Bounded.EventOdds) (s : Bounded.OddsCache) :
    (Bounded.nbaOddsLoop eventId bks ticks acc s).2.nbaOdds = s.nbaOdds := by
  induction bks generalizing ticks acc s with
  | nil => simp [Bounded.nbaOddsLoop]
  | cons bk bks ih =>
    unfold Bounded.nbaOddsLoop
    by_cases hg : (Bounded.checkRateLimit (ticks.headD Bounded.defaultTick).now s).1
        = true
    · simp only [hg, Bool.not_true, Bool.false_eq_true, if_false]
      rw [ih, nbaOddsStep_state, fetchWithRateLimit_nbaOdds, checkRateLimit_nbaOdds]
    · simp only [Bool.not_eq_true] at hg
      rw [List.headD_eq_head?] at hg
      simp [hg, checkRateLimit_nbaOdds]

/-- Claim C6 (amended): fetchNbaOddsForEvent stores the snapshot it just built
under the event id unconditionally - even a run that obtained no bookmaker
data replaces the previously stored snapshot (with an empty-bookmakers one)
rather than leaving it unchanged - and entries of every other event id are
untouched (never deleted). -/
theorem fetchNbaOddsForEvent_stores (eventId : String) (ticks : List Bounded.Tick)
    (now : Nat) (s : Bounded.OddsCache) :
    getKey (Bounded.fetchNbaOddsForEvent eventId ticks now s).2.nbaOdds eventId =
      some (Bounded.fetchNbaOddsForEvent eventId ticks now s).1 ∧
    (∀ id2, id2 ≠ eventId →
      getKey (Bounded.fetchNbaOddsForEvent eventId ticks now s).2.nbaOdds id2 =
        getKey s.nbaOdds id2) := by
  constructor
  · simp [Bounded.fetchNbaOddsForEvent, getKey_setKey_self]
  · intro id2 hne
    simp only [Bounded.fetchNbaOddsForEvent]
    rw [getKey_setKey_ne _ _ _ _ hne, nbaOddsLoop_nbaOdds]

theorem fetchNbaOddsForEvent_stores_witness :
    getKey (Bounded.fetchNbaOddsForEvent "E1" [] 0 emptyBounded).2.nbaOdds "E1" =
      some (Bounded.fetchNbaOddsForEvent "E1" [] 0 emptyBounded).1 ∧
    getKey (Bounded.fetchNbaOddsForEvent "E1" [] 0 emptyBounded).2.nbaOdds "E2" =
      getKey emptyBounded.nbaOdds "E2" :=
  ⟨(fetchNbaOddsForEvent_stores "E1" [] 0 emptyBounded).1,
   (fetchNbaOddsForEvent_stores "E1" [] 0 emptyBounded).2 "E2" (by decide)⟩

/-- Sample snapshot previously stored for event E1: one bookmaker key. -/
def c6Prior : Bounded.EventOdds := ⟨[("Kambi", "blob")], [], none, none, none, 0⟩

/-- State with an exhausted budget and a prior non-empty snapshot for E1. -/
def c6State : Bounded.OddsCache :=
  { emptyBounded with apiCallsThisHour := 5000, nbaOdds := [("E1", c6Prior)] }

/-- Counterexample to claim C6 as stated: a fetchNbaOddsForEvent call in which
no bookmaker data is obtained (every call blocked by the exhausted budget)
does NOT leave the previously stored snapshot unchanged - it overwrites the
one-bookmaker snapshot with a fresh empty-bookmakers snapshot. -/
theorem fetchNbaOddsForEvent_overwrites_cex :
    getKey c6State.nbaOdds "E1" = some c6Prior ∧
    keysOf c6Prior.bookmakers = ["Kambi"] ∧
    getKey (Bounded.fetchNbaOddsForEvent "E1" [] 0 c6State).2.nbaOdds "E1" =
      some ⟨[], [], none, none, none, 0⟩ := by
  decide

/-- Claim C9: the bookmaker-key set of a snapshot under construction only
grows: each merge of one odds record (OpticOdds variant) and each bookmaker
step (bounded variant) preserves every existing key and never decreases the
key count; folding a whole odds array is likewise non-decreasing. -/
theorem snapshot_keys_monotone :
    (∀ (bs : List (String × Optic.OBookData)) (o : Optic.OddRecord),
      (keysOf bs).length ≤ (keysOf (Optic.mergeOdd bs o)).length ∧
      (∀ k, k ∈ keysOf bs → k ∈ keysOf (Optic.mergeOdd bs o))) ∧
    (∀ (os : List Optic.OddRecord) (bs : List (String × Optic.OBookData)),
      (keysOf bs).length ≤ (keysOf (os.foldl Optic.mergeOdd bs)).length) ∧
    (∀ (eventId : String) (acc : Bounded.EventOdds) (bookmaker : String)
        (t : Bounded.Tick) (s : Bounded.OddsCache),
      (keysOf acc.bookmakers).length ≤
        (keysOf (Bounded.nbaOddsStep eventId acc bookmaker t s).1.bookmakers).length ∧
      (∀ k, k ∈ keysOf acc.bookmakers →
        k ∈ keysOf (Bounded.nbaOddsStep eventId acc bookmaker t s).1.bookmakers)) := by
  refine ⟨?_, ?_, ?_⟩
  · intro bs o
    exact ⟨length_keysOf_setKey bs o.sportsbook _,
      fun k hk => mem_keysOf_setKey bs o.sportsbook k _ hk⟩
  · intro os
    induction os with
    | nil => intro bs; simp
    | cons o os ih =>
      intro bs
      calc (keysOf bs).length ≤ (keysOf (Optic.mergeOdd bs o)).length :=
            length_keysOf_setKey bs o.sportsbook _
        _ ≤ _ := by simpa using ih (Optic.mergeOdd bs o)
  · intro eventId acc bookmaker t s
    unfold Bounded.nbaOddsStep
    dsimp only
    rcases hr : (Bounded.fetchWithRateLimit t.now (Bounded.nbaOddsUrl eventId bookmaker)
        t.resp s).1 with _ | p
    · exact ⟨Nat.le_refl _, fun k hk => hk⟩
    · rcases p with evs | ⟨bs, urls, h, a, d⟩ | _
      · exact ⟨Nat.le_refl _, fun k hk => hk⟩
      · rcases hg2 : getKey bs bookmaker with _ | bd
        · simp only [hg2]
          exact ⟨Nat.le_refl _, fun k hk => hk⟩
        · simp only [hg2]
          exact ⟨length_keysOf_setKey acc.bookmakers bookmaker bd,
            fun k hk => mem_keysOf_setKey acc.bookmakers bookmaker k bd hk⟩
      · exact ⟨Nat.le_refl _, fun k hk => hk⟩

/-- Sample odds-array entry used by the C9 witness. -/
def sampleOddRecord : Optic.OddRecord := ⟨"fanduel", "moneyline", "Home", 110, none, true⟩

theorem snapshot_keys_monotone_witness :
    "draftkings" ∈ keysOf (Optic.mergeOdd [("draftkings", ⟨[]⟩)] sampleOddRecord) :=
  (snapshot_keys_monotone.1 [("draftkings", ⟨[]⟩)] sampleOddRecord).2 "draftkings"
    (by decide)

/-- Claim C4: when the configured API key is non-empty, a fetchNbaEvents call
whose upstream request fails - non-2xx status, transport error, or a payload
whose JSON does not parse - leaves the cached events and their timestamp
unchanged and records the error (with time, message and url) in lastError; a
successful array payload wholesale-replaces the events and stamps the
timestamp. -/
theorem events_fetch_failure_frame (key : String) (now : Nat)
    (resp : Upstream Optic.OPayload) (s : Optic.OddsCache) (hkey : key ≠ "") :
    (∀ code text, resp = .httpError code text →
      (Optic.fetchNbaEvents key now resp s).2.nbaEvents = s.nbaEvents ∧
      (Optic.fetchNbaEvents key now resp s).2.lastNbaEventsUpdate =
        s.lastNbaEventsUpdate ∧
      (Optic.fetchNbaEvents key now resp s).2.lastError =
        some ⟨now, "HTTP " ++ toString code ++ ": " ++ text, some Optic.nbaEventsUrl⟩) ∧
    (∀ m, resp = .transportError m →
      (Optic.fetchNbaEvents key now resp s).2.nbaEvents = s.nbaEvents ∧
      (Optic.fetchNbaEvents key now resp s).2.lastNbaEventsUpdate =
        s.lastNbaEventsUpdate ∧
      (Optic.fetchNbaEvents key now resp s).2.lastError =
        some ⟨now, m, some Optic.nbaEventsUrl⟩) ∧
    (∀ m, resp = .badJson m →
      (Optic.fetchNbaEvents key now resp s).2.nbaEvents = s.nbaEvents ∧
      (Optic.fetchNbaEvents key now resp s).2.lastNbaEventsUpdate =
        s.lastNbaEventsUpdate ∧
      (Optic.fetchNbaEvents key now resp s).2.lastError =
        some ⟨now, m, some Optic.nbaEventsUrl⟩) ∧
    (∀ fs, resp = .ok (.fixtures fs) →
      (Optic.fetchNbaEvents key now resp s).2.nbaEvents =
        fs.map (Optic.transformFixture "nba") ∧
      (Optic.fetchNbaEvents key now resp s).2.lastNbaEventsUpdate = some now) := by
  refine ⟨?_, ?_, ?_, ?_⟩
  · rintro code text rfl
    refine ⟨?_, ?_, ?_⟩ <;> simp [Optic.fetchNbaEvents, Optic.fetchApi, hkey]
  · rintro m rfl
    refine ⟨?_, ?_, ?_⟩ <;> simp [Optic.fetchNbaEvents, Optic.fetchApi, hkey]
  · rintro m rfl
    refine ⟨?_, ?_, ?_⟩ <;> simp [Optic.fetchNbaEvents, Optic.fetchApi, hkey]
  · rintro fs rfl
    refine ⟨?_, ?_⟩ <;> simp [Optic.fetchNbaEvents, Optic.fetchApi, hkey]

theorem events_fetch_failure_frame_witness :
    (Optic.fetchNbaEvents "k" 3 (.transportError "down") emptyOptic).2.nbaEvents =
      Optic.OddsCache.nbaEvents emptyOptic ∧
    (Optic.fetchNbaEvents "k" 3 (.transportError "down")
        emptyOptic).2.lastNbaEventsUpdate =
      Optic.OddsCache.lastNbaEventsUpdate emptyOptic ∧
    (Optic.fetchNbaEvents "k" 3 (.transportError "down") emptyOptic).2.lastError =
      some ⟨3, "down", some Optic.nbaEventsUrl⟩ :=
  (events_fetch_failure_frame "k" 3 (.transportError "down") emptyOptic
    (by decide)).2.1 "down" rfl

/-- Claim C5 (amended): a successful upstream response carrying an empty
events array does NOT leave the prior cached events untouched: since an empty
JS array is truthy, the guard accepts it, so the cached list is replaced by
the empty list and the timestamp is stamped; only failed or shape-rejected
responses leave prior events untouched. -/
theorem empty_success_replaces_events (key : String) (now : Nat)
    (s : Optic.OddsCache) (hkey : key ≠ "") :
    (Optic.fetchNbaEvents key now (.ok (.fixtures [])) s).2.nbaEvents = [] ∧
    (Optic.fetchNbaEvents key now (.ok (.fixtures [])) s).2.lastNbaEventsUpdate =
      some now := by
  constructor <;> simp [Optic.fetchNbaEvents, Optic.fetchApi, hkey]

/-- Sample cached event used by witnesses and counterexamples. -/
def sampleEvent : Event := ⟨"EV1", "Lakers", "Celtics", 1000, "nba", "pending"⟩

/-- State with a non-empty prior cached events list. -/
def c5State : Optic.OddsCache := { emptyOptic with nbaEvents := [sampleEvent] }

theorem empty_success_replaces_events_witness :
    (Optic.fetchNbaEvents "k" 5 (.ok (.fixtures [])) c5State).2.nbaEvents = [] ∧
    (Optic.fetchNbaEvents "k" 5 (.ok (.fixtures [])) c5State).2.lastNbaEventsUpdate =
      some 5 :=
  empty_success_replaces_events "k" 5 c5State (by decide)

/-- Counterexample to claim C5 as stated: with a non-empty prior cached list,
a successful empty-list response clears the cache (the events list becomes
empty and differs from the prior one) instead of leaving it untouched. -/
theorem empty_success_clears_events_cex :
    c5State.nbaEvents = [sampleEvent] ∧
    (Optic.fetchNbaEvents "k" 5 (.ok (.fixtures [])) c5State).2.nbaEvents = [] ∧
    (Optic.fetchNbaEvents "k" 5 (.ok (.fixtures []))
        c5State).2.nbaEvents ≠ c5State.nbaEvents := by
  decide

/-- The trace of the bounded per-event refresh loop is always a prefix of the
event-id list, and it is the whole list exactly when the loop ended by list
exhaustion rather than by the budget gate. -/
theorem refreshNbaOddsLoop_take (evs : List Event) (envs : List Bounded.EventEnv)
    (s : Bounded.OddsCache) :
    ∃ k, (Bounded.refreshNbaOddsLoop evs envs s).2.1 = (evs.map Event.id).take k ∧
      ((Bounded.refreshNbaOddsLoop evs envs s).2.2 =
          Bounded.StopCause.listExhausted →
        (Bounded.refreshNbaOddsLoop evs envs s).2.1 = evs.map Event.id) := by
  induction evs generalizing envs s with
  | nil =>
    refine ⟨0, by simp [Bounded.refreshNbaOddsLoop], ?_⟩
    intro h
    simp [Bounded.refreshNbaOddsLoop]
  | cons e es ih =>
    by_cases hg : (Bounded.checkRateLimit (envs.headD Bounded.defaultEventEnv).now s).1
        = true
    · obtain ⟨k, h1, h2⟩ := ih envs.tail
        (Bounded.fetchNbaOddsForEvent e.id (envs.headD Bounded.defaultEventEnv).ticks
          (envs.headD Bounded.defaultEventEnv).now
          (Bounded.checkRateLimit (envs.headD Bounded.defaultEventEnv).now s).2).2
      refine ⟨k + 1, ?_, ?_⟩
      · simp only [Bounded.refreshNbaOddsLoop, hg, Bool.not_true, Bool.false_eq_true,
          if_false, List.map_cons, List.take_succ_cons]
        rw [h1]
      · intro hc
        simp only [Bounded.refreshNbaOddsLoop, hg, Bool.not_true, Bool.false_eq_true,
          if_false, List.map_cons] at hc ⊢
        rw [h2 hc]
    · simp only [Bool.not_eq_true] at hg
      rw [List.headD_eq_head?] at hg
      refine ⟨0, ?_, ?_⟩
      · simp [Bounded.refreshNbaOddsLoop, hg]
      · intro hc
        simp [Bounded.refreshNbaOddsLoop, hg] at hc

/-- The event list refreshNbaOdds iterates over: cached events sorted by
ascending date and restricted to the three-day look-ahead horizon (source
lines: sortedEvents / upcomingEvents of the bounded refreshNbaOdds). -/
def upcomingOf (now : Nat) (evs : List Event) : List Event :=
  (sortByDate evs).filter (fun e => decide (e.date ≤ now + Bounded.threeDaysMs))

/-- Claim C7 (amended, bounded variant): with cached events present,
refreshNbaOdds invokes fetchNbaOddsForEvent exactly along a prefix of the
horizon-restricted date-sorted event list - the full list when the loop ended
by list exhaustion, a shorter prefix only when the budget gate stopped it;
that list is chronologically ascending and holds exactly the cached events
within the three-day horizon.  (The quota-free variant applies no horizon:
see the counterexample.) -/
theorem refreshOdds_horizon_order (now : Nat) (evTick : Bounded.Tick)
    (envs : List Bounded.EventEnv) (s : Bounded.OddsCache)
    (hne : s.nbaEvents ≠ []) :
    (∃ k, (Bounded.refreshNbaOdds now evTick envs s).2.1 =
        ((upcomingOf now s.nbaEvents).map Event.id).take k) ∧
    ((Bounded.refreshNbaOdds now evTick envs s).2.2 =
        Bounded.StopCause.listExhausted →
      (Bounded.refreshNbaOdds now evTick envs s).2.1 =
        (upcomingOf now s.nbaEvents).map Event.id) ∧
    List.Pairwise (fun a b => a.date ≤ b.date) (upcomingOf now s.nbaEvents) ∧
    (∀ e, e ∈ upcomingOf now s.nbaEvents ↔
      e ∈ s.nbaEvents ∧ e.date ≤ now + Bounded.threeDaysMs) := by
  have hlen : ¬ (s.nbaEvents.length = 0) := by
    simpa [List.length_eq_zero] using hne
  have hr : (Bounded.refreshNbaOdds now evTick envs s).2 =
      (Bounded.refreshNbaOddsLoop (upcomingOf now s.nbaEvents) envs s).2 := by
    unfold Bounded.refreshNbaOdds upcomingOf
    simp [hlen]
  obtain ⟨k, h1, h2⟩ := refreshNbaOddsLoop_take (upcomingOf now s.nbaEvents) envs s
  refine ⟨⟨k, by rw [hr]; exact h1⟩, ?_, ?_, ?_⟩
  · intro hc
    rw [hr] at hc ⊢
    exact h2 hc
  · exact List.Pairwise.sublist (List.filter_sublist _) (sortByDate_sorted _)
  · intro e
    unfold upcomingOf
    simp [List.mem_filter, mem_sortByDate]

/-- Bounded-variant state with one cached event, for the C7 witness. -/
def c7bState : Bounded.OddsCache := { emptyBounded with nbaEvents := [sampleEvent] }

theorem refreshOdds_horizon_order_witness :
    Bounded.OddsCache.nbaEvents c7bState ≠ [] ∧
    ((∃ k, (Bounded.refreshNbaOdds 2000 Bounded.defaultTick [] c7bState).2.1 =
        ((upcomingOf 2000 c7bState.nbaEvents).map Event.id).take k) ∧
     ((Bounded.refreshNbaOdds 2000 Bounded.defaultTick [] c7bState).2.2 =
          Bounded.StopCause.listExhausted →
        (Bounded.refreshNbaOdds 2000 Bounded.defaultTick [] c7bState).2.1 =
          (upcomingOf 2000 c7bState.nbaEvents).map Event.id) ∧
     List.Pairwise (fun a b => a.date ≤ b.date) (upcomingOf 2000 c7bState.nbaEvents) ∧
     (∀ e, e ∈ upcomingOf 2000 c7bState.nbaEvents ↔
        e ∈ c7bState.nbaEvents ∧ e.date ≤ 2000 + Bounded.threeDaysMs)) :=
  ⟨by decide,
   refreshOdds_horizon_order 2000 Bounded.defaultTick [] c7bState (by decide)⟩

/-- Event scheduled one millisecond beyond the three-day horizon. -/
def c7Event : Event := ⟨"EV9", "HomeTeam", "AwayTeam", 259200001, "nba", "pending"⟩

/-- Quota-free-variant state with only that far-future event cached. -/
def c7State : Optic.OddsCache := { emptyOptic with nbaEvents := [c7Event] }

/-- Counterexample to claim C7 as stated: the quota-free variant applies no
look-ahead horizon - with the clock at 0 no cached event lies within the
three-day horizon, yet refreshNbaOdds still invokes fetchNbaOddsForEvent for
the far-future event. -/
theorem refreshOdds_no_horizon_cex :
    c7State.nbaEvents.filter (fun e => decide (e.date ≤ 0 + Bounded.threeDaysMs)) =
      [] ∧
    (Optic.refreshNbaOdds "k" 0 (.ok .noData) [(0, .transportError "down")]
        c7State).2 = ["EV9"] := by
  decide
